import Mathlib

/-!
Verification of the Gamma-MCP adapter (src/src/index.ts).

The development shallowly embeds the logical core of the adapter:
configuration resolution (getBaseUrl, getApiKey), outbound request
construction (the part of callGamma that runs before the network call),
response normalization (the part of callGamma that runs after the network
call, together with safeReadJson), and the tool handlers
(gamma_create_generation, gamma_get_generation, gamma_get_asset).

Modelling conventions:
- A process environment snapshot is a function from variable names to
  Option String (none = variable unset).
- JavaScript string trimming is modelled by jsTrim and toLowerCase by
  jsToLower (character-list implementations, so that the kernel can
  evaluate them; they agree with the JavaScript functions on the inputs
  relevant here).
- JSON values are a standard inductive; JavaScript truthiness of a decoded
  value is made explicit (jsTruthy).
- An HTTP response is modelled by its observable interface: status, status
  text, the outcome of attempting response.json() (none = the parse threw),
  and the bytes of response.arrayBuffer().
- callGamma is split at the fetch call: buildRequest covers everything
  before the network call and returns Except (an Except.error models an
  exception thrown before any network request is issued); handleResponse
  covers the normalization applied to the response.
- The WHATWG URL constructor new URL(path, base) is modelled for the only
  shape the adapter uses, an absolute path against an absolute base:
  the origin of the base followed by the path.
-/

namespace Gamma

/-- Environment snapshot: variable name to optional raw value. -/
abbrev Env := String → Option String

def CANONICAL_ID : String := "gamma-mcp"

def CANONICAL_DISPLAY : String := "Gamma MCP"

def CANONICAL_CONST : String := "GAMMA_MCP"

def DEFAULT_BASE_URL : String := "https://public-api.gamma.app"

/-- Name of the namespaced base-URL variable, GAMMA_MCP_GAMMA_BASE_URL. -/
def nsBaseUrlVar : String := CANONICAL_CONST ++ "_GAMMA_BASE_URL"

/-- Name of the namespaced API-key variable, GAMMA_MCP_GAMMA_API_KEY. -/
def nsApiKeyVar : String := CANONICAL_CONST ++ "_GAMMA_API_KEY"

/-- Model of JavaScript String.prototype.trim: leading and trailing
whitespace characters removed. -/
def jsTrim (s : String) : String :=
  String.mk (((s.data.dropWhile Char.isWhitespace).reverse.dropWhile Char.isWhitespace).reverse)

/-- Model of JavaScript String.prototype.toLowerCase (ASCII lowering; the
non-ASCII inputs relevant here are untouched by both). -/
def jsToLower (s : String) : String :=
  String.mk (s.data.map Char.toLower)

/-- Reading process.env[k]?.trim(): an unset variable stays undefined,
a set one is trimmed. -/
def trimmedEnv (env : Env) (k : String) : Option String :=
  (env k).map jsTrim

/-- JavaScript a || b on string-or-undefined values: b is taken when a is
undefined or the empty string. -/
def jsOrStr (a b : Option String) : Option String :=
  if a.getD "" = "" then b else a

/-- Embedding of getBaseUrl: namespaced variable, then legacy variable,
then the hardcoded default, each trimmed, empty-after-trim falling through. -/
def getBaseUrl (env : Env) : String :=
  (jsOrStr (jsOrStr (trimmedEnv env nsBaseUrlVar) (trimmedEnv env "GAMMA_BASE_URL"))
      (some DEFAULT_BASE_URL)).getD DEFAULT_BASE_URL

/-- Message of the configuration error thrown by getApiKey. -/
def apiKeyErrorMessage : String :=
  CANONICAL_DISPLAY ++ " requires the " ++ CANONICAL_CONST ++
    "_GAMMA_API_KEY environment variable to be set."

/-- Embedding of getApiKey: namespaced variable, then legacy variable, each
trimmed; a falsy result (both unset or empty after trimming) throws the
configuration error, modelled as Except.error. -/
def getApiKey (env : Env) : Except String String :=
  match jsOrStr (trimmedEnv env nsApiKeyVar) (trimmedEnv env "GAMMA_API_KEY") with
  | none => .error apiKeyErrorMessage
  | some v => if v = "" then .error apiKeyErrorMessage else .ok v

/-- Scalar values admitted in searchParams: string | number | boolean. -/
inductive SearchValue where
  | str (s : String)
  | num (n : Int)
  | bool (b : Bool)
deriving DecidableEq

/-- JavaScript String(raw) coercion on a search-parameter scalar. -/
def SearchValue.toJSString : SearchValue → String
  | .str s => s
  | .num n => toString n
  | .bool b => if b then "true" else "false"

/-- JSON values, as produced by response.json() and consumed by
JSON.stringify. Numbers are modelled as integers (the payloads the adapter
handles use integral numbers). -/
inductive Json where
  | null
  | bool (b : Bool)
  | num (n : Int)
  | str (s : String)
  | arr (xs : List Json)
  | obj (fields : List (String × Json))

/-- JavaScript truthiness of a decoded JSON value: null, false, 0 and the
empty string are falsy; every array and object is truthy. -/
def jsTruthy : Json → Bool
  | .null => false
  | .bool b => b
  | .num n => n != 0
  | .str s => s != ""
  | .arr _ => true
  | .obj _ => true

/-- JSON string escaping used by JSON.stringify (quote, backslash and the
common control characters; other characters pass through). -/
def jsonEscapeChar (c : Char) : String :=
  if c = '"' then "\\\""
  else if c = '\\' then "\\\\"
  else if c = '\n' then "\\n"
  else if c = '\r' then "\\r"
  else if c = '\t' then "\\t"
  else String.singleton c

def jsonEscape (s : String) : String :=
  "\"" ++ String.join (s.data.map jsonEscapeChar) ++ "\""

mutual

/-- JSON.stringify on a JSON value. -/
def Json.stringify : Json → String
  | .null => "null"
  | .bool b => if b then "true" else "false"
  | .num n => toString n
  | .str s => jsonEscape s
  | .arr xs => "[" ++ Json.stringifyList xs ++ "]"
  | .obj fs => "\x7b" ++ Json.stringifyFields fs ++ "\x7d"

def Json.stringifyList : List Json → String
  | [] => ""
  | [x] => Json.stringify x
  | x :: xs => Json.stringify x ++ "," ++ Json.stringifyList xs

def Json.stringifyFields : List (String × Json) → String
  | [] => ""
  | [(k, v)] => jsonEscape k ++ ":" ++ Json.stringify v
  | (k, v) :: fs => jsonEscape k ++ ":" ++ Json.stringify v ++ "," ++ Json.stringifyFields fs

end

/-- JavaScript truthiness of the optional body field (undefined is falsy). -/
def jsTruthyOpt : Option Json → Bool
  | none => false
  | some v => jsTruthy v

/-- Expected response shape of an operation. -/
inductive ResponseKind where
  | json
  | binary
deriving DecidableEq

/-- Embedding of the GammaRequestOptions type: the logical operation
descriptor handed to callGamma. searchParams is the entry list of the
record (record keys are distinct); a value of none embeds an undefined
entry. -/
structure GammaRequestOptions where
  path : String
  method : Option String := none
  body : Option Json := none
  searchParams : List (String × Option SearchValue) := []
  responseType : Option ResponseKind := none

/-- Split a character list at the first occurrence of the scheme separator
of a URL. -/
def splitSchemeSep : List Char → Option (List Char × List Char)
  | [] => none
  | ':' :: '/' :: '/' :: rest => some ([], rest)
  | c :: rest => (splitSchemeSep rest).map (fun p => (c :: p.1, p.2))

/-- Origin (scheme plus authority) of an absolute URL string. -/
def urlOrigin (base : String) : String :=
  match splitSchemeSep base.data with
  | none => base
  | some (scheme, rest) =>
    String.mk (scheme ++ [':', '/', '/'] ++ rest.takeWhile (fun c => c != '/'))

/-- Characters of a path up to and including its last slash. -/
def upToLastSlash : List Char → List Char
  | [] => []
  | c :: rest =>
    if '/' ∈ rest then c :: upToLastSlash rest
    else if c = '/' then ['/'] else []

/-- Model of new URL(path, base) for the shapes the adapter produces: an
absolute path replaces the whole path of the base. (The relative branch is
an approximation of WHATWG resolution; the adapter only ever passes paths
that start with a slash.) -/
def urlResolve (path : String) (base : String) : String :=
  match path.data with
  | '/' :: _ => urlOrigin base ++ path
  | _ =>
    urlOrigin base ++
      String.mk (upToLastSlash (base.data.drop (urlOrigin base).data.length)) ++ path

/-- Model of url.searchParams.set: replace the binding of an existing key,
append a new one. (URLSearchParams.set replaces the first binding and drops
later ones; for the key-distinct lists produced from a record, replacing
every binding is the same operation.) -/
def setParam (q : List (String × String)) (k v : String) : List (String × String) :=
  if q.any (fun p => p.fst = k) then
    q.map (fun p => if p.fst = k then (k, v) else p)
  else q ++ [(k, v)]

/-- Query construction loop of callGamma: undefined entries are skipped,
all the others are set with their String(raw) coercion. -/
def buildQuery (params : List (String × Option SearchValue)) : List (String × String) :=
  params.foldl
    (fun acc kv =>
      match kv.snd with
      | none => acc
      | some raw => setParam acc kv.fst raw.toJSString)
    []

/-- Outbound HTTP request as handed to fetch: resolved URL (without the
query), the serialized query, method, headers, and the serialized body. -/
structure HttpRequest where
  url : String
  query : List (String × String)
  method : String
  headers : List (String × String)
  body : Option String
deriving DecidableEq

instance {ε α : Type} [DecidableEq ε] [DecidableEq α] : DecidableEq (Except ε α) := fun a b =>
  match a, b with
  | .error x, .error y =>
    if h : x = y then .isTrue (by rw [h]) else .isFalse (fun hc => h (by injection hc))
  | .error _, .ok _ => .isFalse (fun hc => Except.noConfusion hc)
  | .ok _, .error _ => .isFalse (fun hc => Except.noConfusion hc)
  | .ok x, .ok y =>
    if h : x = y then .isTrue (by rw [h]) else .isFalse (fun hc => h (by injection hc))

/-- Embedding of callGamma up to (and excluding) the fetch call: URL and
query construction, configuration resolution, header and method selection,
body serialization. An Except.error models an exception thrown before any
network request is issued. -/
def buildRequest (env : Env) (o : GammaRequestOptions) : Except String HttpRequest :=
  let url := urlResolve o.path (getBaseUrl env)
  let query := buildQuery o.searchParams
  match getApiKey env with
  | .error e => .error e
  | .ok key =>
    let accept := if o.responseType = some .binary then "*/*" else "application/json"
    let method := o.method.getD (if jsTruthyOpt o.body then "POST" else "GET")
    let headers :=
      [("X-API-KEY", key), ("Accept", accept)] ++
        (match o.body with
         | none => []
         | some _ => [("Content-Type", "application/json")])
    .ok { url := url, query := query, method := method, headers := headers,
          body := o.body.map Json.stringify }

/-- Observable interface of a fetch Response: status, status text, the
outcome of attempting to decode the body as JSON (none when the parse
throws), and the raw body bytes (each a value below 256). -/
structure HttpResponse where
  status : Nat
  statusText : String
  jsonBody : Option Json
  bytes : List Nat

/-- Model of Response.ok: status in the 2xx range. -/
def responseOk (r : HttpResponse) : Bool :=
  200 ≤ r.status && r.status ≤ 299

/-- Embedding of safeReadJson: the JSON decode of the body, with a decode
failure caught and turned into undefined (none); no exception escapes. -/
def safeReadJson (r : HttpResponse) : Option Json :=
  r.jsonBody

/-- Message of the error thrown on a non-2xx response: status and status
text, followed by the stringified decoded detail when that detail is
truthy. -/
def failureMessage (r : HttpResponse) : String :=
  "Gamma API request failed: " ++ toString r.status ++ " " ++ r.statusText ++
    (match safeReadJson r with
     | some v => if jsTruthy v then " - " ++ Json.stringify v else ""
     | none => "")

/-- Normalized outcome of callGamma after the fetch: the thrown failure for
a non-2xx status, the undefined result for 204, the byte buffer for a
binary descriptor, the decoded JSON value otherwise, and the uncaught
response.json() exception on the success path. -/
inductive CallResult where
  | failure (message : String)
  | empty
  | binary (bytes : List Nat)
  | jsonSuccess (v : Json)
  | jsonDecodeFailure

/-- Embedding of callGamma from the fetch call onwards: non-2xx statuses
throw the failure message, 204 returns undefined, a binary descriptor
returns the body bytes, otherwise the body is decoded as JSON (a decode
failure on this path propagates). -/
def handleResponse (o : GammaRequestOptions) (r : HttpResponse) : CallResult :=
  if responseOk r = false then .failure (failureMessage r)
  else if r.status = 204 then .empty
  else if o.responseType = some .binary then .binary r.bytes
  else
    match r.jsonBody with
    | some v => .jsonSuccess v
    | none => .jsonDecodeFailure

/-- Characters encodeURIComponent leaves unescaped. -/
def uriUnreserved (c : Char) : Bool :=
  c.isAlphanum || c = '-' || c = '_' || c = '.' || c = '!' || c = '~' ||
    c = '*' || c.toNat = 39 || c = '(' || c = ')'

/-- UTF-8 bytes of a code point. -/
def utf8Bytes (n : Nat) : List Nat :=
  if n < 128 then [n]
  else if n < 2048 then [192 + n / 64, 128 + n % 64]
  else if n < 65536 then [224 + n / 4096, 128 + n / 64 % 64, 128 + n % 64]
  else [240 + n / 262144, 128 + n / 4096 % 64, 128 + n / 64 % 64, 128 + n % 64]

def hexDigit (n : Nat) : Char :=
  "0123456789ABCDEF".data.getD n '0'

def percentEncodeChar (c : Char) : String :=
  String.join ((utf8Bytes c.toNat).map
    (fun b => "%" ++ String.singleton (hexDigit (b / 16)) ++ String.singleton (hexDigit (b % 16))))

/-- Model of encodeURIComponent: unreserved characters pass through, every
other character is percent-encoded byte by byte. -/
def encodeURIComponent (s : String) : String :=
  String.join (s.data.map (fun c => if uriUnreserved c then String.singleton c else percentEncodeChar c))

/-- Base64 alphabet used by Buffer.toString with the base64 encoding. -/
def b64Alphabet : String :=
  "ABCDEFGHIJKLMNOPQRSTUVWXYZabcdefghijklmnopqrstuvwxyz0123456789+/"

def b64Char (n : Nat) : Char :=
  b64Alphabet.data.getD n '?'

/-- Index of a character in the base64 alphabet (64 for padding and any
foreign character). -/
def b64Index (c : Char) : Nat :=
  (b64Alphabet.data.indexOf c)

/-- Base64 encoding of a byte list, three bytes to four characters, with
trailing padding; model of Buffer.toString at the base64 encoding. -/
def base64EncodeChars : List Nat → List Char
  | [] => []
  | [a] => [b64Char (a / 4), b64Char (a % 4 * 16), '=', '=']
  | [a, b] => [b64Char (a / 4), b64Char (a % 4 * 16 + b / 16), b64Char (b % 16 * 4), '=']
  | a :: b :: c :: rest =>
    b64Char (a / 4) :: b64Char (a % 4 * 16 + b / 16) ::
      b64Char (b % 16 * 4 + c / 64) :: b64Char (c % 64) :: base64EncodeChars rest

def base64Encode (bs : List Nat) : String :=
  String.mk (base64EncodeChars bs)

/-- Base64 decoding, four characters to three bytes, stopping at padding. -/
def base64DecodeChars : List Char → List Nat
  | w :: x :: y :: z :: rest =>
    if y = '=' then [b64Index w * 4 + b64Index x / 16]
    else if z = '=' then
      [b64Index w * 4 + b64Index x / 16,
        b64Index x % 16 * 16 + b64Index y / 4]
    else
      (b64Index w * 4 + b64Index x / 16) ::
        (b64Index x % 16 * 16 + b64Index y / 4) ::
        (b64Index y % 4 * 64 + b64Index z) :: base64DecodeChars rest
  | _ => []

def base64Decode (s : String) : List Nat :=
  base64DecodeChars s.data

/-- Result rendered back over the tool protocol: the error flag and the
text payloads. -/
structure ToolResult where
  isError : Bool
  content : List String
deriving DecidableEq

/-- Pre-network behaviour of a tool handler: either an immediate protocol
response, or a callGamma invocation with the given operation descriptor. -/
inductive HandlerStep where
  | respond (r : ToolResult)
  | gammaCall (o : GammaRequestOptions)

/-- Embedding of the textOptions argument object of
gamma_create_generation. -/
structure TextOptions where
  amount : Option String := none
  tone : Option String := none
  audience : Option String := none
  language : Option String := none
deriving DecidableEq

structure ImageOptions where
  source : Option String := none
  model : Option String := none
  style : Option String := none
deriving DecidableEq

structure CardOptions where
  dimensions : Option String := none
deriving DecidableEq

structure SharingOptions where
  workspaceAccess : Option String := none
  externalAccess : Option String := none
deriving DecidableEq

/-- Arguments of the gamma_create_generation tool (every field optional in
the schema; enum-typed fields are carried as strings). -/
structure CreateGenArgs where
  inputText : Option String := none
  textMode : Option String := none
  format : Option String := none
  themeName : Option String := none
  numCards : Option Int := none
  cardSplit : Option String := none
  additionalInstructions : Option String := none
  exportAs : Option String := none
  textOptions : Option TextOptions := none
  imageOptions : Option ImageOptions := none
  cardOptions : Option CardOptions := none
  sharingOptions : Option SharingOptions := none

/-- Aliases for Japanese recognized by the language normalization. -/
def japaneseAliases : List String := ["ja", "jp", "ja-jp", "japanese", "日本語"]

/-- Embedding of the normalizedTextOptions block: absent options stay
absent; otherwise the object is cloned and, when the language field is
truthy and its trimmed lowercased form is a Japanese alias, the clone's
language is set to ja. The source mutates only the clone built by object
spread, which this pure function models. -/
def normalizedTextOptions : Option TextOptions → Option TextOptions
  | none => none
  | some t =>
    match t.language with
    | some lang =>
      if lang ≠ "" then
        if jsToLower (jsTrim lang) ∈ japaneseAliases then
          some { t with language := some "ja" }
        else some t
      else some t
    | none => some t

/-- Object field present only when the value is defined; JSON.stringify
drops undefined properties, so the serialized body is the object of the
defined fields. -/
def mkField (k : String) (v : Option Json) : List (String × Json) :=
  match v with
  | none => []
  | some j => [(k, j)]

def textOptionsJson (t : TextOptions) : Json :=
  Json.obj (mkField "amount" (t.amount.map .str) ++ mkField "tone" (t.tone.map .str) ++
    mkField "audience" (t.audience.map .str) ++ mkField "language" (t.language.map .str))

def imageOptionsJson (t : ImageOptions) : Json :=
  Json.obj (mkField "source" (t.source.map .str) ++ mkField "model" (t.model.map .str) ++
    mkField "style" (t.style.map .str))

def cardOptionsJson (t : CardOptions) : Json :=
  Json.obj (mkField "dimensions" (t.dimensions.map .str))

def sharingOptionsJson (t : SharingOptions) : Json :=
  Json.obj (mkField "workspaceAccess" (t.workspaceAccess.map .str) ++
    mkField "externalAccess" (t.externalAccess.map .str))

/-- Serialized body of the create-generation request: the defined fields in
source order, with textOptions normalized. -/
def createGenBody (a : CreateGenArgs) (it : String) : Json :=
  Json.obj
    (mkField "inputText" (some (.str it)) ++
      mkField "textMode" (a.textMode.map .str) ++
      mkField "format" (a.format.map .str) ++
      mkField "themeName" (a.themeName.map .str) ++
      mkField "numCards" (a.numCards.map .num) ++
      mkField "cardSplit" (a.cardSplit.map .str) ++
      mkField "additionalInstructions" (a.additionalInstructions.map .str) ++
      mkField "exportAs" (a.exportAs.map .str) ++
      mkField "textOptions" ((normalizedTextOptions a.textOptions).map textOptionsJson) ++
      mkField "imageOptions" (a.imageOptions.map imageOptionsJson) ++
      mkField "cardOptions" (a.cardOptions.map cardOptionsJson) ++
      mkField "sharingOptions" (a.sharingOptions.map sharingOptionsJson))

/-- Error text returned when inputText is missing or empty. -/
def missingInputTextMessage : String :=
  "inputText must be provided to create a Gamma generation."

/-- Embedding of the gamma_create_generation handler up to its callGamma
invocation: a falsy inputText (absent or empty) answers an error-flagged
result without invoking callGamma; otherwise callGamma is invoked once with
the POST descriptor built from the arguments. -/
def createGenerationHandler (a : CreateGenArgs) : HandlerStep :=
  match a.inputText with
  | none => .respond { isError := true, content := [missingInputTextMessage] }
  | some it =>
    if it = "" then .respond { isError := true, content := [missingInputTextMessage] }
    else
      .gammaCall
        { path := "/v0.2/generations", method := some "POST",
          body := some (createGenBody a it), searchParams := [], responseType := none }

/-- Embedding of the gamma_get_generation handler: one GET descriptor for
the generation path, with the expand entry set to the string true when the
expand argument is true and undefined otherwise. -/
def getGenerationHandler (generationId : String) (expand : Option Bool) : HandlerStep :=
  .gammaCall
    { path := "/v0.2/generations/" ++ encodeURIComponent generationId,
      method := some "GET",
      searchParams := [("expand", if expand.getD false then some (.str "true") else none)],
      responseType := none }

/-- Embedding of the gamma_get_asset handler up to its callGamma
invocation: one GET descriptor for the asset path with a binary response
type. -/
def getAssetHandler (generationId assetId : String) : HandlerStep :=
  .gammaCall
    { path := "/v0.2/generations/" ++ encodeURIComponent generationId ++
        "/assets/" ++ encodeURIComponent assetId,
      method := some "GET", responseType := some .binary }

/-- Rendering of the gamma_get_asset result: the base64 encoding of the
returned bytes as a single text payload. -/
def renderAssetResult (bytes : List Nat) : ToolResult :=
  { isError := false, content := [base64Encode bytes] }

/-! ### Claim theorems -/

/-- Emptiness of an optional environment value after trimming. -/
def blankOpt (o : Option String) : Bool :=
  decide (((o.map jsTrim).getD "") = "")

/-- Base-URL resolution as the specification words it: the trimmed
namespaced variable when non-empty after trimming, else the trimmed legacy
variable when non-empty after trimming, else the hardcoded default. -/
def specBaseUrl (env : Env) : String :=
  let ns := ((env nsBaseUrlVar).map jsTrim).getD ""
  let legacy := ((env "GAMMA_BASE_URL").map jsTrim).getD ""
  if ns ≠ "" then ns else if legacy ≠ "" then legacy else DEFAULT_BASE_URL

/-- C2: getBaseUrl resolves to the trimmed namespaced variable when
non-empty after trimming, otherwise the trimmed legacy variable when
non-empty after trimming, otherwise the hardcoded default URL; so the
legacy value is returned when only it is set, and the namespaced one wins
when both are set. -/
theorem C2_base_url_resolution (env : Env) : getBaseUrl env = specBaseUrl env := by
  unfold getBaseUrl specBaseUrl jsOrStr trimmedEnv
  cases h1 : env nsBaseUrlVar <;> cases h2 : env "GAMMA_BASE_URL" <;>
    simp <;> split_ifs <;> simp_all

/-- Resolution behaviour of getApiKey, split on which variables are blank
(unset or empty after trimming). -/
theorem getApiKey_spec (env : Env) :
    getApiKey env =
      if blankOpt (env nsApiKeyVar) = false then
        .ok (((env nsApiKeyVar).map jsTrim).getD "")
      else if blankOpt (env "GAMMA_API_KEY") = false then
        .ok (((env "GAMMA_API_KEY").map jsTrim).getD "")
      else .error apiKeyErrorMessage := by
  unfold getApiKey jsOrStr trimmedEnv blankOpt
  cases h1 : env nsApiKeyVar <;> cases h2 : env "GAMMA_API_KEY" <;>
    simp <;> split_ifs <;> simp_all

/-- C1: when both the namespaced and the legacy API-key variables are
absent or empty after trimming, every call that reaches key resolution
fails before the network request is built, with the configuration error
whose message names the required variable; when at least one is non-empty
after trimming, resolution returns the trimmed namespaced value if that one
is non-empty, else the trimmed legacy value. -/
theorem C1_api_key_resolution (env : Env) (o : GammaRequestOptions) :
    (blankOpt (env nsApiKeyVar) = true → blankOpt (env "GAMMA_API_KEY") = true →
      buildRequest env o = .error apiKeyErrorMessage ∧
      ∃ pre post, apiKeyErrorMessage = pre ++ nsApiKeyVar ++ post) ∧
    (blankOpt (env nsApiKeyVar) = false →
      getApiKey env = .ok (((env nsApiKeyVar).map jsTrim).getD "")) ∧
    (blankOpt (env nsApiKeyVar) = true → blankOpt (env "GAMMA_API_KEY") = false →
      getApiKey env = .ok (((env "GAMMA_API_KEY").map jsTrim).getD "")) := by
  refine ⟨fun h1 h2 => ⟨?_, ?_⟩, fun h1 => ?_, fun h1 h2 => ?_⟩
  · unfold buildRequest
    rw [getApiKey_spec]
    simp [h1, h2]
  · exact ⟨"Gamma MCP requires the ", " environment variable to be set.", by decide⟩
  · rw [getApiKey_spec]; simp [h1]
  · rw [getApiKey_spec]; simp [h1, h2]

/-- Witness for C1 at a concrete environment: with both variables unset the
request construction fails with the configuration error. -/
theorem C1_api_key_resolution_witness :
    buildRequest (fun _ => none) { path := "/v0.2/generations" } = .error apiKeyErrorMessage ∧
    ∃ pre post, apiKeyErrorMessage = pre ++ nsApiKeyVar ++ post :=
  (C1_api_key_resolution (fun _ => none) { path := "/v0.2/generations" }).1 (by decide) (by decide)

/-- Insertion into a query with no binding of the key appends the pair. -/
theorem setParam_of_not_mem (q : List (String × String)) (k v : String)
    (h : ∀ p ∈ q, p.fst ≠ k) : setParam q k v = q ++ [(k, v)] := by
  unfold setParam
  rw [if_neg]
  simp only [List.any_eq_true, decide_eq_true_eq, not_exists, not_and]
  exact fun p hp => h p hp

/-- Query-construction loop characterized on key-distinct entry lists: the
defined entries survive in order with coerced values, the undefined ones
vanish. -/
theorem buildQuery_go (params : List (String × Option SearchValue))
    (acc : List (String × String))
    (hd : (params.map Prod.fst).Nodup)
    (hacc : ∀ p ∈ acc, p.fst ∉ params.map Prod.fst) :
    params.foldl
        (fun acc kv =>
          match kv.snd with
          | none => acc
          | some raw => setParam acc kv.fst raw.toJSString)
        acc
      = acc ++ params.filterMap (fun kv => kv.snd.map (fun v => (kv.fst, v.toJSString))) := by
  induction params generalizing acc with
  | nil => simp
  | cons kv rest ih =>
    obtain ⟨k, ov⟩ := kv
    simp only [List.map_cons, List.nodup_cons] at hd
    cases ov with
    | none =>
      simp only [List.foldl_cons, List.filterMap_cons]
      rw [ih acc hd.2]
      · simp
      · intro p hp
        have := hacc p hp
        simp only [List.map_cons, List.mem_cons, not_or] at this
        exact this.2
    | some v =>
      simp only [List.foldl_cons, List.filterMap_cons]
      have hset : setParam acc k v.toJSString = acc ++ [(k, v.toJSString)] := by
        refine setParam_of_not_mem acc k _ (fun p hp => ?_)
        have := hacc p hp
        simp only [List.map_cons, List.mem_cons, not_or] at this
        exact this.1
      rw [hset, ih (acc ++ [(k, v.toJSString)]) hd.2]
      · simp
      · intro p hp
        rcases List.mem_append.mp hp with hp | hp
        · have := hacc p hp
          simp only [List.map_cons, List.mem_cons, not_or] at this
          exact this.2
        · simp only [List.mem_singleton] at hp
          subst hp
          exact hd.1

/-- C4: for a searchParams record (its entry list has distinct keys), the
query built by callGamma is exactly the list of defined entries with their
values coerced to strings; every key bound to undefined never appears in
the query under any value. -/
theorem C4_query_serialization (params : List (String × Option SearchValue))
    (hd : (params.map Prod.fst).Nodup) :
    buildQuery params
        = params.filterMap (fun kv => kv.snd.map (fun v => (kv.fst, v.toJSString))) ∧
    ∀ k, (k, (none : Option SearchValue)) ∈ params → ∀ s, (k, s) ∉ buildQuery params := by
  have hmain : buildQuery params
      = params.filterMap (fun kv => kv.snd.map (fun v => (kv.fst, v.toJSString))) := by
    unfold buildQuery
    exact buildQuery_go params [] hd (by simp)
  refine ⟨hmain, fun k hk s hmem => ?_⟩
  rw [hmain] at hmem
  obtain ⟨⟨k2, ov⟩, hmem2, heq⟩ := List.mem_filterMap.mp hmem
  cases ov with
  | none => simp at heq
  | some v =>
    have heq2 : (k2, v.toJSString) = (k, s) := by simpa using heq
    have hk2 : k2 = k := by
      have := congrArg Prod.fst heq2
      simpa using this
    subst hk2
    have : (k2, (none : Option SearchValue)) = (k2, some v) :=
      List.inj_on_of_nodup_map hd hk hmem2 rfl
    simp at this

/-- Witness for C4 at a concrete parameter list with one defined and one
undefined entry. -/
theorem C4_query_serialization_witness :
    buildQuery [("expand", some (.str "true")), ("page", (none : Option SearchValue))]
        = [("expand", some (SearchValue.str "true")), ("page", (none : Option SearchValue))].filterMap
            (fun kv => kv.snd.map (fun v => (kv.fst, v.toJSString))) ∧
    ∀ k, (k, (none : Option SearchValue)) ∈
        [("expand", some (SearchValue.str "true")), ("page", (none : Option SearchValue))] →
      ∀ s, (k, s) ∉ buildQuery [("expand", some (.str "true")), ("page", (none : Option SearchValue))] :=
  C4_query_serialization _ (by decide)

/-- Environment granting an API key through the legacy variable only. -/
def keyOnlyEnv : Env := fun k => if k = "GAMMA_API_KEY" then some "test-key" else none

/-- Descriptor with no explicit method and a defined but falsy body. -/
def c3Options : GammaRequestOptions :=
  { path := "/v0.2/generations", method := none, body := some (Json.bool false) }

/-- Request built from c3Options in keyOnlyEnv. -/
def c3Request : HttpRequest :=
  { url := "https://public-api.gamma.app/v0.2/generations", query := [], method := "GET",
    headers := [("X-API-KEY", "test-key"), ("Accept", "application/json"),
      ("Content-Type", "application/json")],
    body := some "false" }

/-- C3 counterexample: a descriptor whose method is unset and whose body is
present (the JSON value false) yields a request whose method is GET, not
POST, even though the body is serialized and sent. -/
theorem C3_counterexample :
    c3Options.method = none ∧ c3Options.body ≠ none ∧
    buildRequest keyOnlyEnv c3Options = .ok c3Request ∧
    c3Request.method = "GET" ∧ c3Request.method ≠ "POST" ∧ c3Request.body = some "false" := by
  refine ⟨rfl, by simp [c3Options], by decide, rfl, by decide, rfl⟩

/-- C3 as amended: for a descriptor with no explicit method, the request
method is POST exactly when the body is truthy; an absent body and also a
defined-but-falsy body give GET; a defined body is serialized into the
request either way. -/
theorem C3_method_default (env : Env) (o : GammaRequestOptions) (r : HttpRequest)
    (hm : o.method = none) (hr : buildRequest env o = .ok r) :
    (jsTruthyOpt o.body = true → r.method = "POST") ∧
    (jsTruthyOpt o.body = false → r.method = "GET") ∧
    r.body = o.body.map Json.stringify := by
  simp only [buildRequest] at hr
  cases hk : getApiKey env with
  | error e => simp [hk] at hr
  | ok key =>
    simp only [hk] at hr
    injection hr with hr
    subst hr
    refine ⟨fun ht => ?_, fun hf => ?_, rfl⟩
    · simp [hm, ht]
    · simp [hm, hf]

/-- Witness for C3 as amended, at the falsy-body descriptor: the method
resolves to GET and the body is still serialized. -/
theorem C3_method_default_witness :
    (jsTruthyOpt c3Options.body = true → c3Request.method = "POST") ∧
    (jsTruthyOpt c3Options.body = false → c3Request.method = "GET") ∧
    c3Request.body = c3Options.body.map Json.stringify :=
  C3_method_default keyOnlyEnv c3Options c3Request rfl (by decide)

/-- Response whose body decodes successfully to the falsy JSON value
false. -/
def c5Response : HttpResponse :=
  { status := 400, statusText := "Bad Request", jsonBody := some (Json.bool false), bytes := [] }

/-- C5 counterexample: a non-2xx response whose body decodes successfully
to the JSON value false is normalized to a failure that carries no detail
at all — the thrown message is the bare status line, not the status line
followed by the decoded body. -/
theorem C5_counterexample :
    c5Response.jsonBody = some (Json.bool false) ∧
    handleResponse { path := "/v0.2/generations" } c5Response =
      .failure "Gamma API request failed: 400 Bad Request" ∧
    ("Gamma API request failed: 400 Bad Request" : String) ≠
      "Gamma API request failed: 400 Bad Request" ++ " - " ++ Json.stringify (Json.bool false) := by
  refine ⟨rfl, rfl, by decide⟩

/-- C5 as amended: every non-2xx response is normalized to a failure (never
an empty success) whose message carries the status code and status text;
the decoded body is appended when decoding succeeds and the decoded value
is truthy, while a body that fails to decode — or decodes to a falsy JSON
value — leaves the bare status line, with no exception escaping the decode
attempt. -/
theorem C5_failure_normalization (o : GammaRequestOptions) (r : HttpResponse)
    (h : responseOk r = false) :
    handleResponse o r = .failure (failureMessage r) ∧
    handleResponse o r ≠ .empty ∧
    (∀ v, r.jsonBody = some v → jsTruthy v = true →
      failureMessage r =
        "Gamma API request failed: " ++ toString r.status ++ " " ++ r.statusText ++
          " - " ++ Json.stringify v) ∧
    ((r.jsonBody = none ∨ ∃ v, r.jsonBody = some v ∧ jsTruthy v = false) →
      failureMessage r =
        "Gamma API request failed: " ++ toString r.status ++ " " ++ r.statusText) := by
  refine ⟨?_, ?_, ?_, ?_⟩
  · simp [handleResponse, h]
  · simp [handleResponse, h]
  · intro v hv htr
    unfold failureMessage safeReadJson
    rw [hv]
    simp only [htr, if_true]
    simp [String.append_assoc]
  · rintro (hn | ⟨v, hv, hf⟩)
    · unfold failureMessage safeReadJson
      rw [hn]
      simp [String.append_empty]
    · unfold failureMessage safeReadJson
      rw [hv]
      simp [hf, String.append_empty]

/-- Witness for C5 as amended at two concrete non-2xx responses: one with a
truthy decoded error object, one with an undecodable body. -/
theorem C5_failure_normalization_witness :
    handleResponse { path := "/v0.2/generations" }
        { status := 404, statusText := "Not Found",
          jsonBody := some (Json.obj [("message", Json.str "missing")]), bytes := [] }
      = .failure (failureMessage
          { status := 404, statusText := "Not Found",
            jsonBody := some (Json.obj [("message", Json.str "missing")]), bytes := [] }) ∧
    failureMessage
        { status := 500, statusText := "Server Error", jsonBody := none, bytes := [] }
      = "Gamma API request failed: " ++ toString (500 : Nat) ++ " " ++ "Server Error" :=
  ⟨(C5_failure_normalization { path := "/v0.2/generations" }
      { status := 404, statusText := "Not Found",
        jsonBody := some (Json.obj [("message", Json.str "missing")]), bytes := [] } rfl).1,
    (C5_failure_normalization { path := "/v0.2/generations" }
      { status := 500, statusText := "Server Error", jsonBody := none, bytes := [] }
      rfl).2.2.2 (Or.inl rfl)⟩

/-- C6: a response with status exactly 204 is normalized to the empty
success, whatever the declared response kind and whatever the body holds —
the no-content branch precedes both the binary branch and the JSON decode
branch. -/
theorem C6_no_content (o : GammaRequestOptions) (r : HttpResponse) (h : r.status = 204) :
    handleResponse o r = .empty := by
  simp [handleResponse, responseOk, h]

/-- Witness for C6 at a binary-kind descriptor and a 204 response carrying
both decodable JSON and bytes: the result is still the empty success. -/
theorem C6_no_content_witness :
    handleResponse { path := "/v0.2/generations", responseType := some .binary }
      { status := 204, statusText := "No Content",
        jsonBody := some (Json.str "ignored"), bytes := [7, 8] } = .empty :=
  C6_no_content _ _ rfl

/-- Descriptor built by the get-generation handler for id gen_123 with
expand omitted. -/
def c7Options : GammaRequestOptions :=
  { path := "/v0.2/generations/gen_123", method := some "GET",
    searchParams := [("expand", none)], responseType := none }

/-- Request built from c7Options in keyOnlyEnv. -/
def c7Request : HttpRequest :=
  { url := "https://public-api.gamma.app/v0.2/generations/gen_123", query := [],
    method := "GET",
    headers := [("X-API-KEY", "test-key"), ("Accept", "application/json")],
    body := none }

/-- C7 counterexample: the get-generation call for id gen_123 issues its
GET request to the versioned path, base origin followed by
/v0.2/generations/gen_123 — not to baseURL followed by
/generations/gen_123 as the claim words it. -/
theorem C7_counterexample :
    getGenerationHandler "gen_123" none = .gammaCall c7Options ∧
    buildRequest keyOnlyEnv c7Options = .ok c7Request ∧
    c7Request.url = "https://public-api.gamma.app/v0.2/generations/gen_123" ∧
    c7Request.url ≠ getBaseUrl keyOnlyEnv ++ "/generations/gen_123" := by
  refine ⟨rfl, by decide, rfl, by decide⟩

/-- Resolution of an absolute path against a base keeps the base origin and
takes the whole path. -/
theorem urlResolve_absolute (p base : String) (c : List Char) (h : p.data = '/' :: c) :
    urlResolve p base = urlOrigin base ++ p := by
  unfold urlResolve
  split
  · rfl
  next hne => exact absurd h (hne c)

/-- Request built by buildRequest for the get-generation descriptor of id
gen_123, once the key has resolved. -/
def getGenRequest (env : Env) (key : String) (expand : Option Bool) : HttpRequest :=
  { url := urlResolve ("/v0.2/generations/" ++ encodeURIComponent "gen_123") (getBaseUrl env),
    query := buildQuery [("expand", if expand.getD false then some (.str "true") else none)],
    method := "GET",
    headers := [("X-API-KEY", key), ("Accept", "application/json")],
    body := none }

/-- C7 as amended: whenever an API key resolves, calling get-generation
with id gen_123 invokes callGamma exactly once, with a GET descriptor whose
path is the versioned generations path /v0.2/generations/gen_123; the
issued URL is the base origin followed by that path, the query is empty
when expand is omitted or false, and holds exactly expand=true when expand
is true. -/
theorem C7_get_generation (env : Env) (expand : Option Bool)
    (hk : blankOpt (env nsApiKeyVar) = false ∨ blankOpt (env "GAMMA_API_KEY") = false) :
    ∃ o, getGenerationHandler "gen_123" expand = .gammaCall o ∧
      o.path = "/v0.2/generations/gen_123" ∧
      ∃ r, buildRequest env o = .ok r ∧
        r.method = "GET" ∧
        r.url = urlOrigin (getBaseUrl env) ++ "/v0.2/generations/gen_123" ∧
        r.body = none ∧
        (expand = some true → r.query = [("expand", "true")]) ∧
        (expand ≠ some true → r.query = []) := by
  obtain ⟨key, hkey⟩ : ∃ key, getApiKey env = .ok key := by
    rw [getApiKey_spec]
    by_cases h1 : blankOpt (env nsApiKeyVar) = false
    · exact ⟨_, by rw [if_pos h1]⟩
    · have h2 : blankOpt (env "GAMMA_API_KEY") = false := by
        rcases hk with hk | hk
        · exact absurd hk h1
        · exact hk
      exact ⟨_, by rw [if_neg h1, if_pos h2]⟩
  have hpath : ("/v0.2/generations/" ++ encodeURIComponent "gen_123")
      = "/v0.2/generations/gen_123" := by decide
  refine ⟨_, rfl, hpath, getGenRequest env key expand, ?_, rfl, ?_, rfl, ?_, ?_⟩
  · show buildRequest env _ = _
    simp only [buildRequest, hkey, getGenRequest]
    rfl
  · show urlResolve ("/v0.2/generations/" ++ encodeURIComponent "gen_123") (getBaseUrl env)
        = urlOrigin (getBaseUrl env) ++ "/v0.2/generations/gen_123"
    rw [hpath]
    exact urlResolve_absolute _ _ ("v0.2/generations/gen_123".data) rfl
  · rintro h
    subst h
    exact (by decide :
      buildQuery [("expand", (some (SearchValue.str "true") : Option SearchValue))]
        = [("expand", "true")])
  · intro h
    rcases expand with _ | b
    · exact (by decide :
        buildQuery [("expand", (none : Option SearchValue))] = [])
    · cases b
      · exact (by decide :
          buildQuery [("expand", (none : Option SearchValue))] = [])
      · exact absurd rfl h

/-- Witness for C7 as amended, in the legacy-key environment with expand
set to true. -/
theorem C7_get_generation_witness :
    ∃ o, getGenerationHandler "gen_123" (some true) = .gammaCall o ∧
      o.path = "/v0.2/generations/gen_123" ∧
      ∃ r, buildRequest keyOnlyEnv o = .ok r ∧
        r.method = "GET" ∧
        r.url = urlOrigin (getBaseUrl keyOnlyEnv) ++ "/v0.2/generations/gen_123" ∧
        r.body = none ∧
        (some true = some true → r.query = [("expand", "true")]) ∧
        (some true ≠ some true → r.query = []) :=
  C7_get_generation keyOnlyEnv (some true) (Or.inr (by decide))

/-- C9: a create-generation invocation whose inputText is absent or empty
answers the error-flagged result carrying the explanatory text, and never
reaches callGamma (so neither a network request nor a credential lookup
happens for it). -/
theorem C9_missing_input (a : CreateGenArgs)
    (h : a.inputText = none ∨ a.inputText = some "") :
    createGenerationHandler a =
      .respond { isError := true, content := [missingInputTextMessage] } ∧
    ∀ o, createGenerationHandler a ≠ .gammaCall o := by
  rcases h with h | h <;>
    refine ⟨by simp [createGenerationHandler, h], fun o hc => ?_⟩ <;>
    simp [createGenerationHandler, h] at hc

/-- Witness for C9 at the empty-string input. -/
theorem C9_missing_input_witness :
    createGenerationHandler { inputText := some "" } =
      .respond { isError := true, content := [missingInputTextMessage] } ∧
    ∀ o, createGenerationHandler { inputText := some "" } ≠ .gammaCall o :=
  C9_missing_input { inputText := some "" } (Or.inr rfl)

/-- Field lookup in a JSON object. -/
def jsonLookup (k : String) : Json → Option Json
  | .obj fs => fs.lookup k
  | _ => none

/-- Every entry produced by mkField carries the declared key. -/
theorem mem_mkField (k : String) (v : Option Json) (p : String × Json)
    (hp : p ∈ mkField k v) : p.1 = k := by
  cases v with
  | none => simp [mkField] at hp
  | some j =>
    simp only [mkField, List.mem_singleton] at hp
    rw [hp]

/-- Lookup skips a prefix none of whose entries carries the key. -/
theorem lookup_append_of_ne (k : String) (l1 l2 : List (String × Json))
    (h : ∀ p ∈ l1, p.1 ≠ k) : (l1 ++ l2).lookup k = l2.lookup k := by
  induction l1 with
  | nil => rfl
  | cons p rest ih =>
    obtain ⟨a, b⟩ := p
    have ha : a ≠ k := h (a, b) (List.mem_cons_self _ _)
    have hbeq : (k == a) = false := beq_eq_false_iff_ne.mpr (Ne.symm ha)
    simp only [List.cons_append, List.lookup, hbeq]
    exact ih (fun q hq => h q (List.mem_cons_of_mem _ hq))

/-- Language value after normalization, as the claim words it. -/
def normalizeLanguage (s : String) : String :=
  if jsToLower (jsTrim s) ∈ japaneseAliases then "ja" else s

/-- Clone built by normalizedTextOptions, characterized field by field. -/
theorem normalizedTextOptions_some (t : TextOptions) :
    normalizedTextOptions (some t) =
      some { t with language := t.language.map normalizeLanguage } := by
  obtain ⟨am, tn, au, la⟩ := t
  cases la with
  | none => simp [normalizedTextOptions]
  | some lang =>
    simp only [normalizedTextOptions, Option.map_some]
    by_cases he : lang = ""
    · subst he
      rw [if_neg (by simp)]
      rfl
    · rw [if_pos he]
      by_cases hj : jsToLower (jsTrim lang) ∈ japaneseAliases
      · rw [if_pos hj]
        simp [normalizeLanguage, hj]
      · rw [if_neg hj]
        simp [normalizeLanguage, hj]

/-- Entries produced by mkField under a key other than the looked-up one
never match. -/
theorem mkField_keys_ne (k2 : String) (v : Option Json) (k : String) (hk : k2 ≠ k) :
    ∀ p ∈ mkField k2 v, p.1 ≠ k :=
  fun p hp => by rw [mem_mkField k2 v p hp]; exact hk

/-- C10: a create-generation invocation with a textOptions object sends a
body whose textOptions field is the normalized clone: amount, tone and
audience are forwarded unchanged (the caller's object is cloned, not
mutated), and the language value is replaced by ja exactly when its trimmed
lowercased form is one of the Japanese aliases, any other language value
passing through unchanged. -/
theorem C10_language_normalization (a : CreateGenArgs) (t : TextOptions) (it : String)
    (hit : a.inputText = some it) (hne : it ≠ "") (hto : a.textOptions = some t) :
    ∃ o, createGenerationHandler a = .gammaCall o ∧
      o.body = some (createGenBody a it) ∧
      jsonLookup "textOptions" (createGenBody a it) =
        some (textOptionsJson { t with language := t.language.map normalizeLanguage }) ∧
      (∀ s, t.language = some s → jsToLower (jsTrim s) ∈ japaneseAliases →
        normalizeLanguage s = "ja") ∧
      (∀ s, t.language = some s → jsToLower (jsTrim s) ∉ japaneseAliases →
        normalizeLanguage s = s) := by
  refine ⟨{ path := "/v0.2/generations", method := some "POST",
            body := some (createGenBody a it), searchParams := [],
            responseType := none },
    ?_, rfl, ?_, ?_, ?_⟩
  · simp only [createGenerationHandler, hit]
    rw [if_neg hne]
  · unfold createGenBody jsonLookup
    rw [hto, normalizedTextOptions_some t]
    simp only [Option.map_some, List.append_assoc]
    rw [lookup_append_of_ne "textOptions" (mkField "inputText" (some (Json.str it))) _
        (mkField_keys_ne _ _ _ (by decide))]
    rw [lookup_append_of_ne "textOptions" (mkField "textMode" (a.textMode.map Json.str)) _
        (mkField_keys_ne _ _ _ (by decide))]
    rw [lookup_append_of_ne "textOptions" (mkField "format" (a.format.map Json.str)) _
        (mkField_keys_ne _ _ _ (by decide))]
    rw [lookup_append_of_ne "textOptions" (mkField "themeName" (a.themeName.map Json.str)) _
        (mkField_keys_ne _ _ _ (by decide))]
    rw [lookup_append_of_ne "textOptions" (mkField "numCards" (a.numCards.map Json.num)) _
        (mkField_keys_ne _ _ _ (by decide))]
    rw [lookup_append_of_ne "textOptions" (mkField "cardSplit" (a.cardSplit.map Json.str)) _
        (mkField_keys_ne _ _ _ (by decide))]
    rw [lookup_append_of_ne "textOptions"
        (mkField "additionalInstructions" (a.additionalInstructions.map Json.str)) _
        (mkField_keys_ne _ _ _ (by decide))]
    rw [lookup_append_of_ne "textOptions" (mkField "exportAs" (a.exportAs.map Json.str)) _
        (mkField_keys_ne _ _ _ (by decide))]
    simp [mkField, List.lookup]
  · intro s hs hj
    unfold normalizeLanguage
    rw [if_pos hj]
  · intro s hs hj
    unfold normalizeLanguage
    rw [if_neg hj]

/-- Concrete create-generation arguments with a Japanese-alias language. -/
def c10Args : CreateGenArgs :=
  { inputText := some "hello",
    textOptions := some { tone := some "fun", language := some " JP " } }

/-- Witness for C10 at concrete arguments whose language is the alias JP
with surrounding whitespace. -/
theorem C10_language_normalization_witness :
    ∃ o, createGenerationHandler c10Args = .gammaCall o ∧
      o.body = some (createGenBody c10Args "hello") ∧
      jsonLookup "textOptions" (createGenBody c10Args "hello") =
        some (textOptionsJson { tone := some "fun",
                                language := (some " JP ").map normalizeLanguage }) ∧
      (∀ s, (some " JP " : Option String) = some s →
        jsToLower (jsTrim s) ∈ japaneseAliases → normalizeLanguage s = "ja") ∧
      (∀ s, (some " JP " : Option String) = some s →
        jsToLower (jsTrim s) ∉ japaneseAliases → normalizeLanguage s = s) :=
  C10_language_normalization c10Args { tone := some "fun", language := some " JP " }
    "hello" rfl (by decide) rfl

/-- Alphabet lookup inverts the alphabet index, on the 64 sextet values. -/
theorem b64Index_b64Char_fin : ∀ m : Fin 64, b64Index (b64Char m.val) = m.val := by decide

/-- Sextet characters are never the padding character. -/
theorem b64Char_ne_pad_fin : ∀ m : Fin 64, b64Char m.val ≠ '=' := by decide

theorem b64Index_b64Char (n : Nat) (h : n < 64) : b64Index (b64Char n) = n :=
  b64Index_b64Char_fin ⟨n, h⟩

theorem b64Char_ne_pad (n : Nat) (h : n < 64) : b64Char n ≠ '=' :=
  b64Char_ne_pad_fin ⟨n, h⟩

/-- Round trip of the chunked character encoding: decoding the encoding of
a byte list (every element below 256) recovers the list. -/
theorem base64DecodeChars_encodeChars : ∀ (bs : List Nat), (∀ b ∈ bs, b < 256) →
    base64DecodeChars (base64EncodeChars bs) = bs
  | [], _ => rfl
  | [a], h => by
    have ha : a < 256 := h a (by simp)
    simp [base64EncodeChars, base64DecodeChars,
      b64Index_b64Char (a / 4) (by omega), b64Index_b64Char (a % 4 * 16) (by omega)]
    omega
  | [a, b], h => by
    have ha : a < 256 := h a (by simp)
    have hb : b < 256 := h b (by simp)
    have hy : b64Char (b % 16 * 4) ≠ '=' := b64Char_ne_pad _ (by omega)
    simp [base64EncodeChars, base64DecodeChars, hy,
      b64Index_b64Char (a / 4) (by omega),
      b64Index_b64Char (a % 4 * 16 + b / 16) (by omega),
      b64Index_b64Char (b % 16 * 4) (by omega)]
    omega
  | a :: b :: c :: rest, h => by
    have ha : a < 256 := h a (by simp)
    have hb : b < 256 := h b (by simp)
    have hc : c < 256 := h c (by simp)
    have ih := base64DecodeChars_encodeChars rest
      (fun x hx => h x (by simp [hx]))
    have hy : b64Char (b % 16 * 4 + c / 64) ≠ '=' := b64Char_ne_pad _ (by omega)
    have hz : b64Char (c % 64) ≠ '=' := b64Char_ne_pad _ (by omega)
    simp only [base64EncodeChars]
    simp only [base64DecodeChars, hy, hz, ite_false]
    rw [b64Index_b64Char (a / 4) (by omega),
      b64Index_b64Char (a % 4 * 16 + b / 16) (by omega),
      b64Index_b64Char (b % 16 * 4 + c / 64) (by omega),
      b64Index_b64Char (c % 64) (by omega)]
    rw [ih]
    simp only [List.cons.injEq, and_true]
    omega

/-- Round trip of the string-level base64 coding. -/
theorem base64_roundtrip (bs : List Nat) (h : ∀ b ∈ bs, b < 256) :
    base64Decode (base64Encode bs) = bs :=
  base64DecodeChars_encodeChars bs h

/-- C8: a 2xx non-204 response under a raw-binary descriptor normalizes to
the binary success carrying exactly the response bytes; the get-asset tool
renders those bytes as their base64 encoding, and base64-decoding the
rendered text recovers the original byte sequence. -/
theorem C8_binary_base64_roundtrip (o : GammaRequestOptions) (r : HttpResponse)
    (hbin : o.responseType = some .binary)
    (hok : responseOk r = true) (h204 : r.status ≠ 204)
    (hbytes : ∀ b ∈ r.bytes, b < 256) :
    handleResponse o r = .binary r.bytes ∧
    renderAssetResult r.bytes = { isError := false, content := [base64Encode r.bytes] } ∧
    base64Decode (base64Encode r.bytes) = r.bytes := by
  refine ⟨?_, rfl, base64_roundtrip r.bytes hbytes⟩
  simp [handleResponse, hok, h204, hbin]

/-- Binary descriptor and 200 response used by the C8 witness. -/
def c8Options : GammaRequestOptions :=
  { path := "/v0.2/generations/gen_123/assets/a1", method := some "GET",
    responseType := some .binary }

def c8Response : HttpResponse :=
  { status := 200, statusText := "OK", jsonBody := none, bytes := [77, 97, 110, 255, 0] }

/-- Witness for C8 at a concrete binary response. -/
theorem C8_binary_base64_roundtrip_witness :
    handleResponse c8Options c8Response = .binary c8Response.bytes ∧
    renderAssetResult c8Response.bytes =
      { isError := false, content := [base64Encode c8Response.bytes] } ∧
    base64Decode (base64Encode c8Response.bytes) = c8Response.bytes :=
  C8_binary_base64_roundtrip c8Options c8Response rfl rfl (by decide) (by decide)

end Gamma
